import Mathlib

/-!
Verification of the µH-iOS micro-hypervisor nucleus (crate `uh-ios`).

The development is a shallow embedding of `vm.rs`, `exit.rs` and
`capability.rs`.  The crate's `types` and `memory` modules are not present
in the source tree; their definitions are reconstructed from the
specification (each such definition is marked below).  Rust `HashMap`s are
modelled as association lists with `HashMap` semantics (insert replaces in
place, lookup returns the first hit), `HashSet<Capability>` as a
duplicate-free list, `VecDeque` as a list used FIFO, and `u64` arithmetic
is taken modulo `2 ^ 64`.
-/

namespace UHIOS

/-- Modelled from the spec: the module `types` (types.rs) is absent from
src.  A VMID is an opaque handle allocated by the monotonic system-state
counter; modelled as a natural number. -/
abbrev VMID := Nat

/-- Modelled from the spec: types.rs is absent from src.  Guest physical
address (64-bit unsigned). -/
abbrev GPA := Nat

/-- Modelled from the spec: types.rs is absent from src.  CPU state: 31
general-purpose 64-bit registers, program counter, stack pointer,
processor-state flags. -/
structure CPUState where
  regs : Fin 31 → Nat
  pc : Nat
  sp : Nat
  flags : Nat

/-- Modelled from the spec: types.rs is absent from src.  Capability atoms
drawn from the closed set of the spec. -/
inductive Capability where
  | Execute
  | MapMemory
  | HandleExit
  | Halt
deriving DecidableEq

/-- Modelled from the spec: types.rs is absent from src.  Exit reasons, the
finite set of trap causes. -/
inductive ExitReason where
  | Hypercall (nr : Nat) (args : Fin 6 → Nat)
  | MemoryFault (gpa : GPA) (write : Bool)
  | InstructionAbort (gpa : GPA)
  | SystemRegister (reg : Nat) (write : Bool)
  | WFI
  | Exception (vector : Nat)
  | Cancelled

/-- Modelled from the spec: types.rs is absent from src.  VM lifecycle
states. -/
inductive VMState where
  | Created
  | Runnable (cpu : CPUState)
  | Trapped (reason : ExitReason) (cpu : CPUState)
  | Halted

/-- Modelled from the spec: types.rs and memory.rs are absent from src.  A
guest-physical memory region record. -/
structure MemoryRegion where
  guest_base : GPA
  length : Nat
  host_backing : Nat
  protection : Nat

/-- The error taxonomy of lib.rs. -/
inductive Error where
  | VMNotFound (v : VMID)
  | InvalidVMState (v : VMID)
  | MemoryError (msg : String)
  | CapabilityError (msg : String)
  | ExitError (msg : String)
  | HVFError (msg : String)

/-- Association-list lookup, modelling `HashMap::get`. -/
def alookup (k : Nat) : List (Nat × β) → Option β
  | [] => none
  | p :: rest => if p.1 = k then some p.2 else alookup k rest

/-- Association-list insert, modelling `HashMap::insert`: replace the value
in place when the key is present, append otherwise. -/
def ainsert (k : Nat) (v : β) (l : List (Nat × β)) : List (Nat × β) :=
  if (alookup k l).isSome then l.map (fun p => if p.1 = k then (k, v) else p)
  else l ++ [(k, v)]

/-- Association-list removal, modelling `HashMap::remove`. -/
def aremove (k : Nat) (l : List (Nat × β)) : List (Nat × β) :=
  l.filter (fun p => p.1 ≠ k)

/-- Modelled from the spec: types.rs is absent from src.  The aggregate
system state: VM map, capability map, memory map, FIFO exit queue and the
monotonic VMID counter. -/
structure SystemState where
  vms : List (VMID × VMState)
  caps : List (VMID × List Capability)
  memory : List (VMID × List MemoryRegion)
  exits : List (VMID × ExitReason)
  next_vmid : VMID

/-- `SystemState::new`: the empty system state. -/
def SystemState.new : SystemState := ⟨[], [], [], [], 0⟩

/-- Modelled from the spec: types.rs is absent from src.  `allocate_vmid`
returns the never-before-returned counter value and increments it. -/
def SystemState.allocate_vmid (s : SystemState) : VMID × SystemState :=
  (s.next_vmid, { s with next_vmid := s.next_vmid + 1 })

/-- Modelled from the spec: types.rs is absent from src.  `has_capability`
is total and returns false when the VM is unknown. -/
def SystemState.has_capability (s : SystemState) (v : VMID) (c : Capability) : Bool :=
  match alookup v s.caps with
  | some l => decide (c ∈ l)
  | none => false

/-- Modelled from the spec: types.rs is absent from src.  The primitive
`grant_capability`: idempotent insertion into the VM's capability set,
without checking the VM's existence. -/
def SystemState.grant_capability (s : SystemState) (v : VMID) (c : Capability) :
    SystemState :=
  match alookup v s.caps with
  | some l => { s with caps := ainsert v (if c ∈ l then l else l ++ [c]) s.caps }
  | none => { s with caps := ainsert v [c] s.caps }

/-- `VMManager::create_vm` (vm.rs): allocate a fresh VMID, insert it in
Created, grant the four default capabilities. -/
def create_vm (s : SystemState) : Except Error VMID × SystemState :=
  let a := s.allocate_vmid
  let s2 := { a.2 with vms := ainsert a.1 VMState.Created a.2.vms }
  let s3 := s2.grant_capability a.1 .Execute
  let s4 := s3.grant_capability a.1 .MapMemory
  let s5 := s4.grant_capability a.1 .HandleExit
  let s6 := s5.grant_capability a.1 .Halt
  (.ok a.1, s6)

/-- `VMManager::initialize_vm` (vm.rs): existence, Created, Execute, then
transition to Runnable. -/
def initialize_vm (s : SystemState) (vmid : VMID) (cpu_state : CPUState) :
    Except Error Unit × SystemState :=
  match alookup vmid s.vms with
  | none => (.error (.VMNotFound vmid), s)
  | some vm_state =>
    match vm_state with
    | .Created =>
      if s.has_capability vmid .Execute then
        (.ok (), { s with vms := ainsert vmid (.Runnable cpu_state) s.vms })
      else (.error (.CapabilityError "Execute capability required"), s)
    | _ => (.error (.InvalidVMState vmid), s)

/-- `VMManager::trap_vm` (vm.rs): only existence is checked; the VM moves to
Trapped and the exit is appended to the queue. -/
def trap_vm (s : SystemState) (vmid : VMID) (exit_reason : ExitReason)
    (cpu_state : CPUState) : Except Error Unit × SystemState :=
  if (alookup vmid s.vms).isSome then
    (.ok (), { s with
      vms := ainsert vmid (.Trapped exit_reason cpu_state) s.vms,
      exits := s.exits ++ [(vmid, exit_reason)] })
  else (.error (.VMNotFound vmid), s)

/-- `VMManager::resume_vm` (vm.rs): existence, Trapped, Execute, then
transition to Runnable. -/
def resume_vm (s : SystemState) (vmid : VMID) (cpu_state : CPUState) :
    Except Error Unit × SystemState :=
  match alookup vmid s.vms with
  | none => (.error (.VMNotFound vmid), s)
  | some vm_state =>
    match vm_state with
    | .Trapped _ _ =>
      if s.has_capability vmid .Execute then
        (.ok (), { s with vms := ainsert vmid (.Runnable cpu_state) s.vms })
      else (.error (.CapabilityError "Execute capability required"), s)
    | _ => (.error (.InvalidVMState vmid), s)

/-- `VMManager::halt_vm` (vm.rs): existence and the Halt capability; no
lifecycle-state check. -/
def halt_vm (s : SystemState) (vmid : VMID) : Except Error Unit × SystemState :=
  if (alookup vmid s.vms).isSome then
    if s.has_capability vmid .Halt then
      (.ok (), { s with vms := ainsert vmid .Halted s.vms })
    else (.error (.CapabilityError "Halt capability required"), s)
  else (.error (.VMNotFound vmid), s)

/-- `VMManager::get_vm_state` (vm.rs). -/
def get_vm_state (s : SystemState) (vmid : VMID) : Except Error VMState :=
  match alookup vmid s.vms with
  | some st => .ok st
  | none => .error (.VMNotFound vmid)

/-- `VMManager::destroy_vm` (vm.rs): removes the VM-state entry and the
capability entry; the memory map and the exit queue are not touched. -/
def destroy_vm (s : SystemState) (vmid : VMID) : Except Error Unit × SystemState :=
  if (alookup vmid s.vms).isSome then
    (.ok (), { s with vms := aremove vmid s.vms, caps := aremove vmid s.caps })
  else (.error (.VMNotFound vmid), s)

/-- `CapabilityManager::check_capability` (capability.rs). -/
def check_capability (s : SystemState) (v : VMID) (c : Capability) : Bool :=
  s.has_capability v c

/-- `CapabilityManager::grant_capability` (capability.rs): existence check,
then the primitive grant. -/
def grant_capability (s : SystemState) (v : VMID) (c : Capability) :
    Except Error Unit × SystemState :=
  if (alookup v s.vms).isSome then (.ok (), s.grant_capability v c)
  else (.error (.VMNotFound v), s)

/-- `CapabilityManager::revoke_capability` (capability.rs): existence check,
then removal from the capability set when an entry exists. -/
def revoke_capability (s : SystemState) (v : VMID) (c : Capability) :
    Except Error Unit × SystemState :=
  if (alookup v s.vms).isSome then
    match alookup v s.caps with
    | some l => (.ok (), { s with caps := ainsert v (l.filter (fun x => x ≠ c)) s.caps })
    | none => (.ok (), s)
  else (.error (.VMNotFound v), s)

/-- `CapabilityManager::transfer_capability` (capability.rs): both VMs must
exist and the source must possess the capability; the capability is granted
to the target first, and then, when moving, removed from the source. -/
def transfer_capability (s : SystemState) (source_vmid target_vmid : VMID)
    (cap : Capability) (move_capability : Bool) : Except Error Unit × SystemState :=
  if (alookup source_vmid s.vms).isNone then (.error (.VMNotFound source_vmid), s)
  else if (alookup target_vmid s.vms).isNone then (.error (.VMNotFound target_vmid), s)
  else if !s.has_capability source_vmid cap then
    (.error (.CapabilityError "Source VM does not have capability"), s)
  else
    let s1 := s.grant_capability target_vmid cap
    let s2 :=
      if move_capability then
        match alookup source_vmid s1.caps with
        | some l => { s1 with caps := ainsert source_vmid (l.filter (fun x => x ≠ cap)) s1.caps }
        | none => s1
      else s1
    (.ok (), s2)

/-- `ExitAction` (exit.rs). -/
inductive ExitAction where
  | Resume (cpu : CPUState)
  | Halt
  | InjectException (vector : Nat) (cpu_state : CPUState)

/-- `ExitHandler::handle_hypercall` (exit.rs).  `pc += 4` is u64 wrapping
addition, modelled modulo `2 ^ 64`. -/
def handle_hypercall (nr : Nat) (cpu_state : CPUState) : Except Error ExitAction :=
  match nr with
  | 0 => .ok (.Resume { cpu_state with pc := (cpu_state.pc + 4) % 2 ^ 64 })
  | 1 => .ok .Halt
  | _ => .ok (.InjectException 0 cpu_state)

/-- `ExitHandler::handle_memory_fault` (exit.rs). -/
def handle_memory_fault (cpu_state : CPUState) : Except Error ExitAction :=
  .ok (.InjectException 1 cpu_state)

/-- `ExitHandler::handle_instruction_abort` (exit.rs). -/
def handle_instruction_abort (cpu_state : CPUState) : Except Error ExitAction :=
  .ok (.InjectException 2 cpu_state)

/-- `ExitHandler::handle_system_register` (exit.rs). -/
def handle_system_register (cpu_state : CPUState) : Except Error ExitAction :=
  .ok (.InjectException 0 cpu_state)

/-- `ExitHandler::handle_wfi` (exit.rs): advance pc past the WFI
instruction (u64 wrapping) and resume. -/
def handle_wfi (cpu_state : CPUState) : Except Error ExitAction :=
  .ok (.Resume { cpu_state with pc := (cpu_state.pc + 4) % 2 ^ 64 })

/-- `ExitHandler::handle_exception` (exit.rs). -/
def handle_exception (vector : Nat) (cpu_state : CPUState) : Except Error ExitAction :=
  .ok (.InjectException vector cpu_state)

/-- `ExitHandler::handle_cancelled` (exit.rs). -/
def handle_cancelled : Except Error ExitAction :=
  .ok .Halt

/-- `ExitHandler::handle_exit` (exit.rs): existence, the HandleExit
capability, then the total dispatch on the exit reason. -/
def handle_exit (s : SystemState) (vmid : VMID) (exit_reason : ExitReason)
    (cpu_state : CPUState) : Except Error ExitAction :=
  if !(alookup vmid s.vms).isSome then .error (.VMNotFound vmid)
  else if !s.has_capability vmid .HandleExit then
    .error (.CapabilityError "HandleExit capability required")
  else
    match exit_reason with
    | .Hypercall nr _ => handle_hypercall nr cpu_state
    | .MemoryFault _ _ => handle_memory_fault cpu_state
    | .InstructionAbort _ => handle_instruction_abort cpu_state
    | .SystemRegister _ _ => handle_system_register cpu_state
    | .WFI => handle_wfi cpu_state
    | .Exception vector => handle_exception vector cpu_state
    | .Cancelled => handle_cancelled

/-- `ExitHandler::process_next_exit` (exit.rs): pop the queue head (the pop
persists even when a later step fails), require the VM to be Trapped,
dispatch through `handle_exit`. -/
def process_next_exit (s : SystemState) :
    Except Error (Option (VMID × ExitAction)) × SystemState :=
  match s.exits with
  | [] => (.ok none, s)
  | (vmid, exit_reason) :: rest =>
    let s1 : SystemState := { s with exits := rest }
    match get_vm_state s1 vmid with
    | .error e => (.error e, s1)
    | .ok vm_state =>
      match vm_state with
      | .Trapped _ cpu =>
        match handle_exit s1 vmid exit_reason cpu with
        | .ok action => (.ok (some (vmid, action)), s1)
        | .error e => (.error e, s1)
      | _ => (.error (.InvalidVMState vmid), s1)

/-- `ExitHandler::apply_exit_action` (exit.rs). -/
def apply_exit_action (s : SystemState) (vmid : VMID) (action : ExitAction) :
    Except Error Unit × SystemState :=
  match action with
  | .Resume cpu_state => resume_vm s vmid cpu_state
  | .Halt => halt_vm s vmid
  | .InjectException _ cpu_state => resume_vm s vmid cpu_state

/-- Bool test that two half-open intervals `[a, a+la)` and `[b, b+lb)`
intersect. -/
def overlapsB (a la b lb : Nat) : Bool :=
  decide (a < b + lb) && decide (b < a + la)

/-- The region sequence of a VM (empty when no entry exists). -/
def regionsOf (s : SystemState) (v : VMID) : List MemoryRegion :=
  (alookup v s.memory).getD []

/-- Modelled from the spec: the module `memory` (memory.rs) is absent from
src.  `map(v, gpa, length, host_backing, protection)`: requires existence,
MapMemory, positive length, no guest-physical overlap with v's own regions,
and no host-backing overlap with any other VM's regions; on success the
region is appended to v's sequence. -/
def map_memory (s : SystemState) (v : VMID) (gpa : GPA) (len host prot : Nat) :
    Except Error Unit × SystemState :=
  if (alookup v s.vms).isNone then (.error (.VMNotFound v), s)
  else if !s.has_capability v .MapMemory then
    (.error (.CapabilityError "MapMemory capability required"), s)
  else if len = 0 then (.error (.MemoryError "zero-length mapping"), s)
  else if (regionsOf s v).any (fun r => overlapsB gpa len r.guest_base r.length) then
    (.error (.MemoryError "guest-physical overlap"), s)
  else if s.memory.any (fun p => decide (p.1 ≠ v) &&
      p.2.any (fun r => overlapsB host len r.host_backing r.length)) then
    (.error (.MemoryError "host-backing overlap"), s)
  else
    let newRegions := regionsOf s v ++ [⟨gpa, len, host, prot⟩]
    (.ok (), { s with memory := ainsert v newRegions s.memory })

/-- Modelled from the spec: memory.rs is absent from src.  `unmap(v, gpa,
length)`: the range must match an existing region of v exactly. -/
def unmap_memory (s : SystemState) (v : VMID) (gpa : GPA) (len : Nat) :
    Except Error Unit × SystemState :=
  if (alookup v s.vms).isNone then (.error (.VMNotFound v), s)
  else if !s.has_capability v .MapMemory then
    (.error (.CapabilityError "MapMemory capability required"), s)
  else if (regionsOf s v).any (fun r => decide (r.guest_base = gpa) && decide (r.length = len)) then
    let rem := (regionsOf s v).filter
      (fun r => !(decide (r.guest_base = gpa) && decide (r.length = len)))
    (.ok (), { s with memory := ainsert v rem s.memory })
  else (.error (.MemoryError "unknown region"), s)

/-- Modelled from the spec: memory.rs is absent from src.  `release_all(v)`:
v keeps no regions afterwards. -/
def release_all (s : SystemState) (v : VMID) : Except Error Unit × SystemState :=
  if (alookup v s.vms).isNone then (.error (.VMNotFound v), s)
  else (.ok (), { s with memory := ainsert v [] s.memory })

/-- Modelled from the spec: the dispatch table of §4.5, written from the
spec's words, to be compared with the source's `handle_exit`. -/
def specDispatch : ExitReason → CPUState → ExitAction
  | .Hypercall nr _, cpu =>
    if nr = 0 then .Resume { cpu with pc := (cpu.pc + 4) % 2 ^ 64 }
    else if nr = 1 then .Halt
    else .InjectException 0 cpu
  | .MemoryFault _ _, cpu => .InjectException 1 cpu
  | .InstructionAbort _, cpu => .InjectException 2 cpu
  | .SystemRegister _ _, cpu => .InjectException 0 cpu
  | .WFI, cpu => .Resume { cpu with pc := (cpu.pc + 4) % 2 ^ 64 }
  | .Exception w, cpu => .InjectException w cpu
  | .Cancelled, _ => .Halt

/-- The public operations of the nucleus, used to quantify over call
sequences. -/
inductive Op where
  | create
  | init (v : VMID) (cpu : CPUState)
  | trap (v : VMID) (r : ExitReason) (cpu : CPUState)
  | resume (v : VMID) (cpu : CPUState)
  | halt (v : VMID)
  | destroy (v : VMID)
  | grant (v : VMID) (c : Capability)
  | revoke (v : VMID) (c : Capability)
  | transfer (src dst : VMID) (c : Capability) (mv : Bool)
  | mapMem (v : VMID) (gpa : GPA) (len host prot : Nat)
  | unmapMem (v : VMID) (gpa : GPA) (len : Nat)
  | releaseAll (v : VMID)
  | pump
  | applyAction (v : VMID) (a : ExitAction)

/-- The state reached after one public operation (kept whether the
operation succeeds or fails, as in the Rust `&mut SystemState` calls). -/
def runOp (s : SystemState) : Op → SystemState
  | .create => (create_vm s).2
  | .init v cpu => (initialize_vm s v cpu).2
  | .trap v r cpu => (trap_vm s v r cpu).2
  | .resume v cpu => (resume_vm s v cpu).2
  | .halt v => (halt_vm s v).2
  | .destroy v => (destroy_vm s v).2
  | .grant v c => (grant_capability s v c).2
  | .revoke v c => (revoke_capability s v c).2
  | .transfer a b c m => (transfer_capability s a b c m).2
  | .mapMem v g l h p => (map_memory s v g l h p).2
  | .unmapMem v g l => (unmap_memory s v g l).2
  | .releaseAll v => (release_all s v).2
  | .pump => (process_next_exit s).2
  | .applyAction v a => (apply_exit_action s v a).2

/-- The state reached after a sequence of public operations. -/
def runOps (s : SystemState) (ops : List Op) : SystemState :=
  ops.foldl runOp s

/-- Every key of the capability map is a key of the VM-state map. -/
def CapsExist (s : SystemState) : Prop :=
  ∀ p ∈ s.caps, (alookup p.1 s.vms).isSome = true

/-- The allocator invariant: every key of the VM-state map is below the
monotonic counter. -/
def VMIDInv (s : SystemState) : Prop :=
  ∀ p ∈ s.vms, p.1 < s.next_vmid

/-- The VMIDs returned by a run of consecutive creates. -/
def createMany (s : SystemState) : Nat → List VMID
  | 0 => []
  | n + 1 =>
    match create_vm s with
    | (.ok v, s') => v :: createMany s' n
    | (.error _, _) => []

/-- The state after a sequence of traps (each `(vmid, reason, cpu)`). -/
def trap_many (s : SystemState) : List (VMID × ExitReason × CPUState) → SystemState
  | [] => s
  | t :: ts => trap_many (trap_vm s t.1 t.2.1 t.2.2).2 ts

/-- The results of `n` successive dispatcher pumps. -/
def pump_trace (s : SystemState) : Nat → List (Except Error (Option (VMID × ExitAction)))
  | 0 => []
  | n + 1 => (process_next_exit s).1 :: pump_trace (process_next_exit s).2 n

/-- No two regions of one VM overlap in guest-physical space. -/
def GuestSeparated (l : List MemoryRegion) : Prop :=
  l.Pairwise (fun a b => overlapsB a.guest_base a.length b.guest_base b.length = false)

/-- No host-backing byte is mapped into two distinct VMs. -/
def HostSeparated (s : SystemState) : Prop :=
  ∀ p ∈ s.memory, ∀ q ∈ s.memory, p.1 ≠ q.1 →
    ∀ a ∈ p.2, ∀ b ∈ q.2,
      overlapsB a.host_backing a.length b.host_backing b.length = false

/-- The memory non-interference invariant (plus key uniqueness of the
memory map, which HashMap keys have by construction). -/
def MemInv (s : SystemState) : Prop :=
  (s.memory.map Prod.fst).Nodup ∧ (∀ p ∈ s.memory, GuestSeparated p.2) ∧ HostSeparated s

/-- The state after a sequence of map requests
`(vmid, gpa, length, host_backing, protection)`; failed requests leave the
state unchanged. -/
def map_many (s : SystemState) : List (VMID × GPA × Nat × Nat × Nat) → SystemState
  | [] => s
  | r :: rest => map_many (map_memory s r.1 r.2.1 r.2.2.1 r.2.2.2.1 r.2.2.2.2).2 rest

/-- A concrete CPU state used by the closed examples: all registers zero,
pc = 0x1000. -/
def cpu0 : CPUState := ⟨fun _ => 0, 0x1000, 0, 0⟩

/-! ## Association-list lemmas -/

theorem alookup_replaceMap (k : Nat) (val : β) :
    ∀ l : List (Nat × β),
      alookup k (l.map (fun p => if p.1 = k then (k, val) else p))
        = (alookup k l).map (fun _ => val)
  | [] => rfl
  | p :: rest => by
      by_cases h : p.1 = k
      · simp [alookup, h]
      · simp [alookup, h, alookup_replaceMap k val rest]

theorem alookup_mapOther (k k' : Nat) (val : β) (h : k' ≠ k) :
    ∀ l : List (Nat × β),
      alookup k' (l.map (fun p => if p.1 = k then (k, val) else p)) = alookup k' l
  | [] => rfl
  | p :: rest => by
      by_cases hp : p.1 = k
      · have hk : ¬(k = k') := fun hh => h hh.symm
        simp [alookup, hp, hk, alookup_mapOther k k' val h rest]
      · have hfp : (if p.1 = k then (k, val) else p) = p := if_neg hp
        by_cases hq : p.1 = k'
        · simp only [List.map_cons, hfp, alookup, if_pos hq]
        · simp only [List.map_cons, hfp, alookup, if_neg hq]
          exact alookup_mapOther k k' val h rest

theorem alookup_append_of_none (k : Nat) :
    ∀ l1 l2 : List (Nat × β), alookup k l1 = none → alookup k (l1 ++ l2) = alookup k l2
  | [], l2, _ => rfl
  | p :: rest, l2, h => by
      by_cases hp : p.1 = k
      · simp [alookup, hp] at h
      · simp only [alookup, if_neg hp] at h ⊢
        exact alookup_append_of_none k rest l2 h

theorem alookup_append_of_some (k : Nat) (b : β) :
    ∀ l1 l2 : List (Nat × β), alookup k l1 = some b → alookup k (l1 ++ l2) = some b
  | [], _, h => by simp [alookup] at h
  | p :: rest, l2, h => by
      by_cases hp : p.1 = k
      · simp only [alookup, if_pos hp] at h ⊢
        exact h
      · simp only [alookup, if_neg hp] at h ⊢
        exact alookup_append_of_some k b rest l2 h

theorem alookup_ainsert_self (k : Nat) (val : β) (l : List (Nat × β)) :
    alookup k (ainsert k val l) = some val := by
  cases hv : alookup k l with
  | some b => simp [ainsert, hv, alookup_replaceMap]
  | none =>
      simp only [ainsert, hv, Option.isSome_none, Bool.false_eq_true, if_false]
      rw [alookup_append_of_none k l [(k, val)] hv]
      simp [alookup]

theorem alookup_ainsert_ne (k k' : Nat) (val : β) (l : List (Nat × β)) (h : k' ≠ k) :
    alookup k' (ainsert k val l) = alookup k' l := by
  cases hv : alookup k l with
  | some b => simp [ainsert, hv, alookup_mapOther k k' val h]
  | none =>
      simp only [ainsert, hv, Option.isSome_none, Bool.false_eq_true, if_false]
      cases hv' : alookup k' l with
      | some c => rw [alookup_append_of_some k' c l _ hv']
      | none =>
          rw [alookup_append_of_none k' l _ hv']
          have hk : ¬(k = k') := fun hh => h hh.symm
          simp [alookup, hk]

theorem alookup_aremove_self (k : Nat) (l : List (Nat × β)) :
    alookup k (aremove k l) = none := by
  induction l with
  | nil => rfl
  | cons p rest ih =>
      by_cases h : p.1 = k
      · simpa [aremove, h] using ih
      · simpa [aremove, alookup, h] using ih

theorem alookup_aremove_ne (k k' : Nat) (l : List (Nat × β)) (h : k' ≠ k) :
    alookup k' (aremove k l) = alookup k' l := by
  induction l with
  | nil => rfl
  | cons p rest ih =>
      by_cases hp : p.1 = k
      · have hk : ¬(k = k') := fun hh => h hh.symm
        simpa [aremove, alookup, hp, hk] using ih
      · by_cases hq : p.1 = k'
        · simp [aremove, alookup, hp, hq, h]
        · simpa [aremove, alookup, hp, hq] using ih

theorem not_mem_key_of_alookup_none (k : Nat) :
    ∀ l : List (Nat × β), alookup k l = none → ∀ p ∈ l, p.1 ≠ k
  | [], _, p, hp => absurd hp (List.not_mem_nil p)
  | q :: rest, h, p, hp => by
      by_cases hq : q.1 = k
      · simp [alookup, hq] at h
      · simp only [alookup, if_neg hq] at h
        rcases List.mem_cons.mp hp with rfl | hp'
        · exact hq
        · exact not_mem_key_of_alookup_none k rest h p hp'

theorem mem_of_alookup_eq_some (k : Nat) (b : β) :
    ∀ l : List (Nat × β), alookup k l = some b → (k, b) ∈ l
  | [], h => by simp [alookup] at h
  | (q1, q2) :: rest, h => by
      by_cases hq : q1 = k
      · simp only [alookup, if_pos hq] at h
        injection h with hb
        subst hq; subst hb
        exact List.mem_cons_self _ _
      · simp only [alookup, if_neg hq] at h
        exact List.mem_cons_of_mem _ (mem_of_alookup_eq_some k b rest h)

theorem mem_ainsert (k : Nat) (val : β) (l : List (Nat × β)) (p : Nat × β)
    (hp : p ∈ ainsert k val l) : p = (k, val) ∨ (p ∈ l ∧ p.1 ≠ k) := by
  unfold ainsert at hp
  by_cases h : (alookup k l).isSome = true
  · rw [if_pos h] at hp
    obtain ⟨q, hq, hfq⟩ := List.mem_map.mp hp
    by_cases hqk : q.1 = k
    · left; rw [← hfq]; simp [hqk]
    · right
      rw [← hfq]; simp only [hqk, if_false]
      exact ⟨hq, hqk⟩
  · rw [if_neg h] at hp
    rcases List.mem_append.mp hp with h1 | h2
    · right
      refine ⟨h1, ?_⟩
      have hnone : alookup k l = none := by
        cases hv : alookup k l
        · rfl
        · rw [hv] at h; simp at h
      exact not_mem_key_of_alookup_none k l hnone p h1
    · left; simpa using h2

theorem alookup_ainsert_isSome (k k' : Nat) (val : β) (l : List (Nat × β))
    (h : (alookup k' l).isSome = true) : (alookup k' (ainsert k val l)).isSome = true := by
  by_cases hk : k' = k
  · subst hk; rw [alookup_ainsert_self]; rfl
  · rw [alookup_ainsert_ne k k' val l hk]; exact h

theorem keys_ainsert (k : Nat) (val : β) (l : List (Nat × β)) :
    (ainsert k val l).map Prod.fst
      = if (alookup k l).isSome then l.map Prod.fst else l.map Prod.fst ++ [k] := by
  by_cases h : (alookup k l).isSome = true
  · rw [ainsert, if_pos h, if_pos h, List.map_map]
    refine List.map_congr_left ?_
    intro p _
    by_cases hp : p.1 = k <;> simp [hp]
  · rw [ainsert, if_neg h, if_neg h, List.map_append]
    rfl

/-! ## Claim C1: totality and exactness of the exit dispatch table -/

theorem handle_exit_total_dispatch (s : SystemState) (v : VMID)
    (r : ExitReason) (cpu : CPUState)
    (hex : (alookup v s.vms).isSome = true)
    (hcap : s.has_capability v .HandleExit = true) :
    handle_exit s v r cpu = .ok (specDispatch r cpu) := by
  cases r with
  | Hypercall nr args =>
      rcases nr with _ | (_ | n) <;>
        simp [handle_exit, hex, hcap, handle_hypercall, specDispatch]
  | MemoryFault gpa w => simp [handle_exit, hex, hcap, handle_memory_fault, specDispatch]
  | InstructionAbort gpa =>
      simp [handle_exit, hex, hcap, handle_instruction_abort, specDispatch]
  | SystemRegister reg w =>
      simp [handle_exit, hex, hcap, handle_system_register, specDispatch]
  | WFI => simp [handle_exit, hex, hcap, handle_wfi, specDispatch]
  | Exception vec => simp [handle_exit, hex, hcap, handle_exception, specDispatch]
  | Cancelled => simp [handle_exit, hex, hcap, handle_cancelled, specDispatch]

/-- C1: for every VM present in the VM-state map that possesses HandleExit,
and for every exit reason and CPU state, `handle_exit` returns Ok with
exactly the action of the dispatch table (Hypercall 0 and WFI resume with
pc advanced by 4 and all other fields unchanged, Hypercall 1 and Cancelled
halt, the remaining reasons inject vector 0, 1, 2, 0 or the guest's own
vector with the CPU state unchanged); no exit reason is rejected. -/
theorem c1_handle_exit_follows_dispatch_table (s : SystemState) (v : VMID)
    (r : ExitReason) (cpu : CPUState)
    (hex : (alookup v s.vms).isSome = true)
    (hcap : s.has_capability v .HandleExit = true) :
    handle_exit s v r cpu = .ok (specDispatch r cpu) :=
  handle_exit_total_dispatch s v r cpu hex hcap

/-- C1 witness: a concrete VM with the HandleExit capability, dispatched on
WFI. -/
theorem c1_witness :
    ((alookup 0 (⟨[(0, .Created)], [(0, [.HandleExit])], [], [], 1⟩ : SystemState).vms).isSome
        = true)
    ∧ ((⟨[(0, .Created)], [(0, [.HandleExit])], [], [], 1⟩ : SystemState).has_capability 0
        .HandleExit = true)
    ∧ handle_exit ⟨[(0, .Created)], [(0, [.HandleExit])], [], [], 1⟩ 0 .WFI cpu0
        = .ok (specDispatch .WFI cpu0) :=
  ⟨rfl, rfl,
    c1_handle_exit_follows_dispatch_table ⟨[(0, .Created)], [(0, [.HandleExit])], [], [], 1⟩
      0 .WFI cpu0 rfl rfl⟩

/-! ## Claim C2: terminality of Halted -/

/-- C2 counterexample: `trap_vm` on a Halted VM does not fail with
InvalidVMState; it succeeds and moves the VM to Trapped, so an operation
other than destroy does take a Halted VM out of Halted. -/
theorem c2_counterexample :
    (trap_vm ⟨[(0, .Halted)], [], [], [], 1⟩ 0 .WFI cpu0).1 = .ok () ∧
    alookup 0 (trap_vm ⟨[(0, .Halted)], [], [], [], 1⟩ 0 .WFI cpu0).2.vms
      = some (.Trapped .WFI cpu0) :=
  ⟨rfl, rfl⟩

/-- C2 amended: for a Halted VM, initialize and resume fail with
InvalidVMState and leave the whole state unchanged, but trap (which checks
only existence) succeeds and moves the VM to Trapped. -/
theorem c2_halted_blocks_initialize_and_resume_but_not_trap
    (s : SystemState) (v : VMID) (hst : alookup v s.vms = some .Halted) :
    (∀ cpu, initialize_vm s v cpu = (.error (.InvalidVMState v), s)) ∧
    (∀ cpu, resume_vm s v cpu = (.error (.InvalidVMState v), s)) ∧
    (∀ r cpu, (trap_vm s v r cpu).1 = .ok () ∧
      alookup v (trap_vm s v r cpu).2.vms = some (.Trapped r cpu)) := by
  have hex : (alookup v s.vms).isSome = true := by rw [hst]; rfl
  refine ⟨?_, ?_, ?_⟩
  · intro cpu; simp [initialize_vm, hst]
  · intro cpu; simp [resume_vm, hst]
  · intro r cpu
    constructor
    · simp [trap_vm, hex]
    · simp [trap_vm, hex, alookup_ainsert_self]

/-- C2 witness: a concrete Halted VM on which initialize and resume fail
with InvalidVMState. -/
theorem c2_witness :
    (alookup 0 (⟨[(0, .Halted)], [], [], [], 1⟩ : SystemState).vms = some .Halted) ∧
    initialize_vm ⟨[(0, .Halted)], [], [], [], 1⟩ 0 cpu0
      = (.error (.InvalidVMState 0), ⟨[(0, .Halted)], [], [], [], 1⟩) ∧
    resume_vm ⟨[(0, .Halted)], [], [], [], 1⟩ 0 cpu0
      = (.error (.InvalidVMState 0), ⟨[(0, .Halted)], [], [], [], 1⟩) :=
  ⟨rfl,
    (c2_halted_blocks_initialize_and_resume_but_not_trap
      ⟨[(0, .Halted)], [], [], [], 1⟩ 0 rfl).1 cpu0,
    (c2_halted_blocks_initialize_and_resume_but_not_trap
      ⟨[(0, .Halted)], [], [], [], 1⟩ 0 rfl).2.1 cpu0⟩

/-! ## Claim C3: the capability gate -/

/-- C3 counterexample: the dispatcher pump on a VM that lacks HandleExit
fails with CapabilityError, but the system state is not exactly as before
the call: the popped exit-queue entry stays consumed. -/
theorem c3_counterexample :
    (process_next_exit ⟨[(0, .Trapped .WFI cpu0)], [(0, [])], [], [(0, .WFI)], 1⟩).1
      = .error (.CapabilityError "HandleExit capability required") ∧
    (process_next_exit ⟨[(0, .Trapped .WFI cpu0)], [(0, [])], [], [(0, .WFI)], 1⟩).2.exits
      ≠ (⟨[(0, .Trapped .WFI cpu0)], [(0, [])], [], [(0, .WFI)], 1⟩ : SystemState).exits :=
  ⟨rfl, fun hh => List.noConfusion hh⟩

/-- C3 amended: for each gated operation invoked on an existing VM whose
lifecycle state meets the operation's own state precondition, removing the
required capability makes the operation fail with CapabilityError; the
state is returned unchanged, except that the dispatcher pump has consumed
the popped exit-queue entry. -/
theorem c3_capability_gate (s : SystemState) (v : VMID) :
    (∀ cpu, alookup v s.vms = some .Created → s.has_capability v .Execute = false →
      initialize_vm s v cpu = (.error (.CapabilityError "Execute capability required"), s)) ∧
    (∀ r c cpu, alookup v s.vms = some (.Trapped r c) → s.has_capability v .Execute = false →
      resume_vm s v cpu = (.error (.CapabilityError "Execute capability required"), s)) ∧
    ((alookup v s.vms).isSome = true → s.has_capability v .Halt = false →
      halt_vm s v = (.error (.CapabilityError "Halt capability required"), s)) ∧
    (∀ r cpu, (alookup v s.vms).isSome = true → s.has_capability v .HandleExit = false →
      handle_exit s v r cpu = .error (.CapabilityError "HandleExit capability required")) ∧
    (∀ rq rest r c, s.exits = (v, rq) :: rest → alookup v s.vms = some (.Trapped r c) →
      s.has_capability v .HandleExit = false →
      process_next_exit s
        = (.error (.CapabilityError "HandleExit capability required"), { s with exits := rest })) := by
  refine ⟨?_, ?_, ?_, ?_, ?_⟩
  · intro cpu hst hcap
    simp [initialize_vm, hst, hcap]
  · intro r c cpu hst hcap
    simp [resume_vm, hst, hcap]
  · intro hex hcap
    simp [halt_vm, hex, hcap]
  · intro r cpu hex hcap
    simp [handle_exit, hex, hcap]
  · intro rq rest r c hq hst hcap
    have hcap' : (⟨s.vms, s.caps, s.memory, rest, s.next_vmid⟩ : SystemState).has_capability v
        Capability.HandleExit = false := hcap
    simp [process_next_exit, hq, get_vm_state, hst, handle_exit, hcap']

/-- C3 witness: concrete gated calls, each on a VM with an empty capability
set, all failing with CapabilityError. -/
theorem c3_witness :
    (alookup 0 (⟨[(0, .Created)], [(0, [])], [], [], 1⟩ : SystemState).vms = some .Created) ∧
    ((⟨[(0, .Created)], [(0, [])], [], [], 1⟩ : SystemState).has_capability 0 .Execute = false) ∧
    (initialize_vm ⟨[(0, .Created)], [(0, [])], [], [], 1⟩ 0 cpu0
      = (.error (.CapabilityError "Execute capability required"),
          ⟨[(0, .Created)], [(0, [])], [], [], 1⟩)) ∧
    (resume_vm ⟨[(0, .Trapped .WFI cpu0)], [(0, [])], [], [], 1⟩ 0 cpu0
      = (.error (.CapabilityError "Execute capability required"),
          ⟨[(0, .Trapped .WFI cpu0)], [(0, [])], [], [], 1⟩)) ∧
    (halt_vm ⟨[(0, .Created)], [(0, [])], [], [], 1⟩ 0
      = (.error (.CapabilityError "Halt capability required"),
          ⟨[(0, .Created)], [(0, [])], [], [], 1⟩)) ∧
    (handle_exit ⟨[(0, .Trapped .WFI cpu0)], [(0, [])], [], [], 1⟩ 0 .WFI cpu0
      = .error (.CapabilityError "HandleExit capability required")) ∧
    (process_next_exit ⟨[(0, .Trapped .WFI cpu0)], [(0, [])], [], [(0, .WFI)], 1⟩
      = (.error (.CapabilityError "HandleExit capability required"),
          ⟨[(0, .Trapped .WFI cpu0)], [(0, [])], [], [], 1⟩)) :=
  ⟨rfl, rfl,
    (c3_capability_gate ⟨[(0, .Created)], [(0, [])], [], [], 1⟩ 0).1 cpu0 rfl rfl,
    (c3_capability_gate ⟨[(0, .Trapped .WFI cpu0)], [(0, [])], [], [], 1⟩ 0).2.1
      .WFI cpu0 cpu0 rfl rfl,
    (c3_capability_gate ⟨[(0, .Created)], [(0, [])], [], [], 1⟩ 0).2.2.1 rfl rfl,
    (c3_capability_gate ⟨[(0, .Trapped .WFI cpu0)], [(0, [])], [], [], 1⟩ 0).2.2.2.1
      .WFI cpu0 rfl rfl,
    (c3_capability_gate ⟨[(0, .Trapped .WFI cpu0)], [(0, [])], [], [(0, .WFI)], 1⟩ 0).2.2.2.2
      .WFI [] .WFI cpu0 rfl rfl rfl⟩

/-! ## Claim C4: the Existence invariant -/

theorem grantPrim_vms (s : SystemState) (v : VMID) (c : Capability) :
    (s.grant_capability v c).vms = s.vms := by
  unfold SystemState.grant_capability
  split <;> rfl

theorem grantPrim_next (s : SystemState) (v : VMID) (c : Capability) :
    (s.grant_capability v c).next_vmid = s.next_vmid := by
  unfold SystemState.grant_capability
  split <;> rfl

theorem mem_caps_grantPrim (s : SystemState) (v : VMID) (c : Capability)
    (p : VMID × List Capability) (hp : p ∈ (s.grant_capability v c).caps) :
    p.1 = v ∨ p ∈ s.caps := by
  unfold SystemState.grant_capability at hp
  rcases hv : alookup v s.caps with _ | l
  · rw [hv] at hp
    rcases mem_ainsert v [c] s.caps p hp with h1 | h2
    · left; rw [h1]
    · right; exact h2.1
  · rw [hv] at hp
    rcases mem_ainsert v _ s.caps p hp with h1 | h2
    · left; rw [h1]
    · right; exact h2.1

theorem capsExist_grantPrim (s : SystemState) (v : VMID) (c : Capability)
    (hex : (alookup v s.vms).isSome = true) (H : CapsExist s) :
    CapsExist (s.grant_capability v c) := by
  intro p hp
  rw [grantPrim_vms]
  rcases mem_caps_grantPrim s v c p hp with h1 | h2
  · rw [h1]; exact hex
  · exact H p h2

theorem create_vm_eq (s : SystemState) :
    create_vm s = (.ok s.next_vmid,
      (((({ s with
            next_vmid := s.next_vmid + 1,
            vms := ainsert s.next_vmid .Created s.vms
          }).grant_capability s.next_vmid .Execute).grant_capability s.next_vmid
            .MapMemory).grant_capability s.next_vmid .HandleExit).grant_capability
              s.next_vmid .Halt) := rfl

theorem capsExist_runOp (s : SystemState) (o : Op) (H : CapsExist s) :
    CapsExist (runOp s o) := by
  cases o with
  | create =>
      show CapsExist (create_vm s).2
      rw [create_vm_eq]
      refine capsExist_grantPrim _ _ _ ?_
        (capsExist_grantPrim _ _ _ ?_
          (capsExist_grantPrim _ _ _ ?_
            (capsExist_grantPrim _ _ _ ?_ ?_)))
      · simp [grantPrim_vms, alookup_ainsert_self]
      · simp [grantPrim_vms, alookup_ainsert_self]
      · simp [grantPrim_vms, alookup_ainsert_self]
      · simp [alookup_ainsert_self]
      · intro p hp
        exact alookup_ainsert_isSome _ _ _ _ (H p hp)
  | init v cpu =>
      show CapsExist (initialize_vm s v cpu).2
      unfold initialize_vm
      split
      · exact H
      · split
        · split
          · intro p hp
            exact alookup_ainsert_isSome _ _ _ _ (H p hp)
          · exact H
        · exact H
  | trap v r cpu =>
      show CapsExist (trap_vm s v r cpu).2
      unfold trap_vm
      split
      · intro p hp
        exact alookup_ainsert_isSome _ _ _ _ (H p hp)
      · exact H
  | resume v cpu =>
      show CapsExist (resume_vm s v cpu).2
      unfold resume_vm
      split
      · exact H
      · split
        · split
          · intro p hp
            exact alookup_ainsert_isSome _ _ _ _ (H p hp)
          · exact H
        · exact H
  | halt v =>
      show CapsExist (halt_vm s v).2
      unfold halt_vm
      split
      · split
        · intro p hp
          exact alookup_ainsert_isSome _ _ _ _ (H p hp)
        · exact H
      · exact H
  | destroy v =>
      show CapsExist (destroy_vm s v).2
      unfold destroy_vm
      split
      · intro p hp
        have hmem := List.mem_filter.mp hp
        have hne : p.1 ≠ v := by simpa using hmem.2
        rw [alookup_aremove_ne v p.1 s.vms hne]
        exact H p hmem.1
      · exact H
  | grant v c =>
      show CapsExist (grant_capability s v c).2
      unfold grant_capability
      split
      · next hex => exact capsExist_grantPrim s v c hex H
      · exact H
  | revoke v c =>
      show CapsExist (revoke_capability s v c).2
      unfold revoke_capability
      split
      · next hex =>
          split
          · intro p hp
            rcases mem_ainsert v _ s.caps p hp with h1 | h2
            · rw [h1]; exact hex
            · exact H p h2.1
          · exact H
      · exact H
  | transfer a b c m =>
      show CapsExist (transfer_capability s a b c m).2
      unfold transfer_capability
      split
      · exact H
      · split
        · exact H
        · split
          · exact H
          · next hsrc htgt _ =>
              have hsrc' : (alookup a s.vms).isSome = true := by
                cases hv : alookup a s.vms
                · rw [hv] at hsrc; simp at hsrc
                · rfl
              have htgt' : (alookup b s.vms).isSome = true := by
                cases hv : alookup b s.vms
                · rw [hv] at htgt; simp at htgt
                · rfl
              have H1 := capsExist_grantPrim s b c htgt' H
              dsimp only
              split
              · split
                · intro p hp
                  rcases mem_ainsert a _ _ p hp with h1 | h2
                  · rw [h1, grantPrim_vms]; exact hsrc'
                  · exact H1 p h2.1
                · exact H1
              · exact H1
  | mapMem v g l h p =>
      show CapsExist (map_memory s v g l h p).2
      unfold map_memory
      split
      · exact H
      · split
        · exact H
        · split
          · exact H
          · split
            · exact H
            · split
              · exact H
              · intro q hq; exact H q hq
  | unmapMem v g l =>
      show CapsExist (unmap_memory s v g l).2
      unfold unmap_memory
      split
      · exact H
      · split
        · exact H
        · split
          · intro q hq; exact H q hq
          · exact H
  | releaseAll v =>
      show CapsExist (release_all s v).2
      unfold release_all
      split
      · exact H
      · intro q hq; exact H q hq
  | pump =>
      show CapsExist (process_next_exit s).2
      unfold process_next_exit
      split
      · exact H
      · dsimp only
        split
        · intro q hq; exact H q hq
        · split
          · split
            · intro q hq; exact H q hq
            · intro q hq; exact H q hq
          · intro q hq; exact H q hq
  | applyAction v a =>
      cases a with
      | Resume cpu =>
          show CapsExist (resume_vm s v cpu).2
          unfold resume_vm
          split
          · exact H
          · split
            · split
              · intro p hp
                exact alookup_ainsert_isSome _ _ _ _ (H p hp)
              · exact H
            · exact H
      | Halt =>
          show CapsExist (halt_vm s v).2
          unfold halt_vm
          split
          · split
            · intro p hp
              exact alookup_ainsert_isSome _ _ _ _ (H p hp)
            · exact H
          · exact H
      | InjectException vec cpu =>
          show CapsExist (resume_vm s v cpu).2
          unfold resume_vm
          split
          · exact H
          · split
            · split
              · intro p hp
                exact alookup_ainsert_isSome _ _ _ _ (H p hp)
              · exact H
            · exact H

/-- C4 counterexample: create a VM, trap it (enqueuing an exit), destroy
it.  The destroyed VMID still occurs in the exit queue although it is no
longer a key of the VM-state map, so the Existence invariant as claimed is
violated exactly in the highlighted destroy-with-pending-exits case. -/
theorem c4_counterexample :
    (0, ExitReason.WFI)
        ∈ (runOps SystemState.new [.create, .trap 0 .WFI cpu0, .destroy 0]).exits ∧
    alookup 0 (runOps SystemState.new [.create, .trap 0 .WFI cpu0, .destroy 0]).vms
        = none := by
  constructor
  · show (0, ExitReason.WFI) ∈ [(0, ExitReason.WFI)]
    exact List.mem_singleton.mpr rfl
  · rfl

/-- C4 amended: in every state reachable by public operations from the
empty state, every VMID that is a key of the capability map is also a key
of the VM-state map; the exit queue and the memory map, however, may retain
entries of destroyed VMs, because destroy removes only the VM-state and
capability entries. -/
theorem c4_caps_keys_exist (ops : List Op) :
    CapsExist (runOps SystemState.new ops) := by
  have h0 : CapsExist SystemState.new := by
    intro p hp
    cases hp
  suffices h : ∀ s, CapsExist s → CapsExist (runOps s ops) from h _ h0
  induction ops with
  | nil => intro s hs; exact hs
  | cons o rest ih =>
      intro s hs
      exact ih _ (capsExist_runOp s o hs)

/-! ## Claim C8: freshness of create and the default capability set -/

theorem grantPrim_lookup_none (s : SystemState) (v : VMID) (c : Capability)
    (h : alookup v s.caps = none) :
    alookup v (s.grant_capability v c).caps = some [c] := by
  simp [SystemState.grant_capability, h, alookup_ainsert_self]

theorem grantPrim_lookup_some_not_mem (s : SystemState) (v : VMID) (c : Capability)
    (l : List Capability) (h : alookup v s.caps = some l) (hc : c ∉ l) :
    alookup v (s.grant_capability v c).caps = some (l ++ [c]) := by
  simp [SystemState.grant_capability, h, hc, alookup_ainsert_self]

/-- C8: under the allocator invariant (spec-modelled monotonic counter) and
the capability-existence invariant, create always succeeds, returns a VMID
that is not yet a key of the VM-state map, places it in Created with
capability set exactly the default four, preserves both invariants, and any
run of consecutive creates returns pairwise distinct VMIDs. -/
theorem c8_create_fresh_and_default_caps (s : SystemState)
    (hInv : VMIDInv s) (hCaps : CapsExist s) :
    ∃ v s', create_vm s = (.ok v, s') ∧
      alookup v s.vms = none ∧
      alookup v s'.vms = some .Created ∧
      alookup v s'.caps = some [.Execute, .MapMemory, .HandleExit, .Halt] ∧
      (∀ c, s'.has_capability v c = true) ∧
      VMIDInv s' ∧ CapsExist s' ∧
      (∀ n, (createMany s n).Nodup) := by
  have hnone_vms : alookup s.next_vmid s.vms = none := by
    cases hv : alookup s.next_vmid s.vms with
    | none => rfl
    | some st =>
        exfalso
        have hm := mem_of_alookup_eq_some _ _ _ hv
        exact lt_irrefl _ (hInv _ hm)
  have hnone_caps : alookup s.next_vmid s.caps = none := by
    cases hv : alookup s.next_vmid s.caps with
    | none => rfl
    | some l =>
        exfalso
        have hm := mem_of_alookup_eq_some _ _ _ hv
        have hsome := hCaps _ hm
        rw [hnone_vms] at hsome
        simp at hsome
  have hls : alookup s.next_vmid (create_vm s).2.caps
      = some [.Execute, .MapMemory, .HandleExit, .Halt] := by
    rw [create_vm_eq]
    have g1 := grantPrim_lookup_none
      ({ s with next_vmid := s.next_vmid + 1, vms := ainsert s.next_vmid .Created s.vms })
      s.next_vmid .Execute hnone_caps
    have g2 := grantPrim_lookup_some_not_mem _ s.next_vmid .MapMemory
      [.Execute] g1 (by decide)
    have g3 := grantPrim_lookup_some_not_mem _ s.next_vmid .HandleExit
      [.Execute, .MapMemory] g2 (by decide)
    have g4 := grantPrim_lookup_some_not_mem _ s.next_vmid .Halt
      [.Execute, .MapMemory, .HandleExit] g3 (by decide)
    exact g4
  refine ⟨s.next_vmid, (create_vm s).2, rfl, hnone_vms, ?_, hls, ?_, ?_, ?_, ?_⟩
  · rw [create_vm_eq]
    simp [grantPrim_vms, alookup_ainsert_self]
  · intro c
    simp only [SystemState.has_capability, hls]
    cases c <;> rfl
  · intro p hp
    have hv : (create_vm s).2.vms = ainsert s.next_vmid .Created s.vms := by
      rw [create_vm_eq]
      simp [grantPrim_vms]
    have hn : (create_vm s).2.next_vmid = s.next_vmid + 1 := by
      rw [create_vm_eq]
      simp [grantPrim_next]
    rw [hv] at hp
    rw [hn]
    rcases mem_ainsert _ _ _ p hp with h1 | h2
    · rw [h1]
      exact Nat.lt_succ_self _
    · exact Nat.lt_succ_of_lt (hInv p h2.1)
  · exact capsExist_runOp s .create hCaps
  · have hrange : ∀ n t, createMany t n = List.range' t.next_vmid n := by
      intro n
      induction n with
      | zero => intro t; rfl
      | succ k ih =>
          intro t
          have hstep : createMany t (k + 1) = t.next_vmid :: createMany (create_vm t).2 k := rfl
          have hn : (create_vm t).2.next_vmid = t.next_vmid + 1 := by
            rw [create_vm_eq]
            simp [grantPrim_next]
          rw [hstep, ih, hn, List.range'_succ]
    intro n
    rw [hrange n s]
    exact List.nodup_range' _ _

/-- C8 witness: creating from the empty state. -/
theorem c8_witness :
    VMIDInv SystemState.new ∧ CapsExist SystemState.new ∧
    (∃ v s', create_vm SystemState.new = (.ok v, s') ∧
      alookup v SystemState.new.vms = none ∧
      alookup v s'.vms = some .Created ∧
      alookup v s'.caps = some [.Execute, .MapMemory, .HandleExit, .Halt] ∧
      (∀ c, s'.has_capability v c = true) ∧
      VMIDInv s' ∧ CapsExist s' ∧
      (∀ n, (createMany SystemState.new n).Nodup)) :=
  ⟨fun p hp => absurd hp (List.not_mem_nil p),
   fun p hp => absurd hp (List.not_mem_nil p),
   c8_create_fresh_and_default_caps SystemState.new
     (fun p hp => absurd hp (List.not_mem_nil p))
     (fun p hp => absurd hp (List.not_mem_nil p))⟩

/-! ## Claim C7: the exit queue is FIFO -/

theorem handle_exit_ok_eq_dispatch (s : SystemState) (v : VMID) (r : ExitReason)
    (cpu : CPUState) (a : ExitAction) (h : handle_exit s v r cpu = .ok a) :
    a = specDispatch r cpu := by
  by_cases hex : (alookup v s.vms).isSome = true
  · by_cases hcap : s.has_capability v .HandleExit = true
    · rw [handle_exit_total_dispatch s v r cpu hex hcap] at h
      injection h with h'
      exact h'.symm
    · rw [Bool.not_eq_true] at hcap
      simp [handle_exit, hex, hcap] at h
  · rw [Bool.not_eq_true] at hex
    simp [handle_exit, hex] at h

theorem trap_many_exits (ts : List (VMID × ExitReason × CPUState)) :
    ∀ s : SystemState, (∀ t ∈ ts, (alookup t.1 s.vms).isSome = true) →
      (trap_many s ts).exits = s.exits ++ ts.map (fun t => (t.1, t.2.1)) := by
  induction ts with
  | nil => intro s _; simp [trap_many]
  | cons t rest ih =>
      intro s h
      have ht : (alookup t.1 s.vms).isSome = true := h t (List.mem_cons_self _ _)
      have hstep : (trap_vm s t.1 t.2.1 t.2.2).2
          = { s with
              vms := ainsert t.1 (.Trapped t.2.1 t.2.2) s.vms,
              exits := s.exits ++ [(t.1, t.2.1)] } := by
        simp [trap_vm, ht]
      have hpres : ∀ u ∈ rest,
          (alookup u.1 (trap_vm s t.1 t.2.1 t.2.2).2.vms).isSome = true := by
        intro u hu
        rw [hstep]
        exact alookup_ainsert_isSome _ _ _ _ (h u (List.mem_cons_of_mem _ hu))
      show (trap_many (trap_vm s t.1 t.2.1 t.2.2).2 rest).exits = _
      rw [ih _ hpres, hstep]
      simp [List.append_assoc]

theorem pump_step (s : SystemState) (v : VMID) (r : ExitReason)
    (rest : List (VMID × ExitReason)) (hq : s.exits = (v, r) :: rest) :
    (process_next_exit s).2 = { s with exits := rest } ∧
    (∀ w a, (process_next_exit s).1 = .ok (some (w, a)) →
      w = v ∧ ∃ cpu, a = specDispatch r cpu) := by
  constructor
  · simp only [process_next_exit, hq]
    cases hg : get_vm_state { s with exits := rest } v with
    | error e => simp [hg]
    | ok st =>
        cases st with
        | Trapped r' cpu =>
            cases hh : handle_exit { s with exits := rest } v r cpu with
            | ok a => simp [hg, hh]
            | error e => simp [hg, hh]
        | Created => simp [hg]
        | Runnable cpu => simp [hg]
        | Halted => simp [hg]
  · intro w a h
    simp only [process_next_exit, hq] at h
    cases hg : get_vm_state { s with exits := rest } v with
    | error e => simp [hg] at h
    | ok st =>
        cases st with
        | Trapped r' cpu =>
            simp only [hg] at h
            cases hh : handle_exit { s with exits := rest } v r cpu with
            | ok act =>
                simp only [hh] at h
                simp at h
                obtain ⟨hw, ha⟩ := h
                refine ⟨hw.symm, cpu, ?_⟩
                rw [← ha]
                exact handle_exit_ok_eq_dispatch _ _ _ _ _ hh
            | error e => simp [hh] at h
        | Created => simp [hg] at h
        | Runnable cpu => simp [hg] at h
        | Halted => simp [hg] at h

theorem pump_trace_spec :
    ∀ (q : List (VMID × ExitReason)) (s : SystemState), s.exits = q →
      ∀ i v r, q.get? i = some (v, r) →
        ∀ w a, (pump_trace s q.length).get? i = some (.ok (some (w, a))) →
          w = v ∧ ∃ cpu, a = specDispatch r cpu := by
  intro q
  induction q with
  | nil =>
      intro s _ i v r hget
      simp at hget
  | cons e tail ih =>
      intro s hq i v r hget w a htrace
      obtain ⟨hstate, hok⟩ := pump_step s e.1 e.2 tail (by rw [hq])
      cases i with
      | zero =>
          have he : e = (v, r) := by simpa using hget
          have ht0 : (pump_trace s (e :: tail).length).get? 0
              = some (process_next_exit s).1 := rfl
          rw [ht0] at htrace
          have h1 : (process_next_exit s).1 = .ok (some (w, a)) := by
            injection htrace
          obtain ⟨hw, hcpu⟩ := hok w a h1
          rw [he] at hw hcpu
          exact ⟨hw, hcpu⟩
      | succ j =>
          have hexits : (process_next_exit s).2.exits = tail := by
            rw [hstate]
          have hget' : tail.get? j = some (v, r) := by simpa using hget
          have htrace' : (pump_trace (process_next_exit s).2 tail.length).get? j
              = some (.ok (some (w, a))) := by
            have hcons : (pump_trace s (e :: tail).length).get? (j + 1)
                = (pump_trace (process_next_exit s).2 tail.length).get? j := rfl
            rw [← hcons]
            exact htrace
          exact ih (process_next_exit s).2 hexits j v r hget' w a htrace'

/-- C7: the exit queue is FIFO.  Trapping the sequence
`(v1,r1,c1) … (vn,rn,cn)` (each VM existing) on a state with an empty
queue yields the queue `[(v1,r1), …, (vn,rn)]` in call order, and the i-th
of `n` successive dispatcher pumps, whenever it returns a popped entry,
returns the i-th VM with an action derived (via the dispatch table) from
the i-th trapped reason. -/
theorem c7_queue_fifo (s : SystemState) (ts : List (VMID × ExitReason × CPUState))
    (hq : s.exits = []) (hex : ∀ t ∈ ts, (alookup t.1 s.vms).isSome = true) :
    (trap_many s ts).exits = ts.map (fun t => (t.1, t.2.1)) ∧
    (∀ i v r, (ts.map (fun t => (t.1, t.2.1))).get? i = some (v, r) →
      ∀ w a, (pump_trace (trap_many s ts) ts.length).get? i = some (.ok (some (w, a))) →
        w = v ∧ ∃ cpu, a = specDispatch r cpu) := by
  have hexits := trap_many_exits ts s hex
  rw [hq, List.nil_append] at hexits
  refine ⟨hexits, ?_⟩
  intro i v r hget w a htrace
  have hlen : (ts.map (fun t => (t.1, t.2.1))).length = ts.length := List.length_map _ _
  rw [← hlen] at htrace
  exact pump_trace_spec _ _ hexits i v r hget w a htrace

/-- C7 witness: one trap on an existing VM from an empty queue. -/
theorem c7_witness :
    ((⟨[(0, .Runnable cpu0)], [(0, [.HandleExit])], [], [], 1⟩ : SystemState).exits = []) ∧
    (trap_many ⟨[(0, .Runnable cpu0)], [(0, [.HandleExit])], [], [], 1⟩
        [(0, .WFI, cpu0)]).exits = [(0, .WFI)] :=
  ⟨rfl,
    (c7_queue_fifo ⟨[(0, .Runnable cpu0)], [(0, [.HandleExit])], [], [], 1⟩
      [(0, .WFI, cpu0)] rfl (by decide)).1⟩

/-! ## Claim C9: memory non-interference -/

theorem overlapsB_comm (a la b lb : Nat) :
    overlapsB a la b lb = overlapsB b lb a la := by
  simp [overlapsB, Bool.and_comm]

theorem any_false {α : Type} (l : List α) (p : α → Bool) (h : l.any p = false) :
    ∀ x ∈ l, p x = false := by
  intro x hx
  cases hp : p x
  · rfl
  · have ht : l.any p = true := List.any_eq_true.mpr ⟨x, hx, hp⟩
    rw [h] at ht
    cases ht

theorem guestSeparated_regionsOf (s : SystemState) (v : VMID)
    (H : ∀ p ∈ s.memory, GuestSeparated p.2) : GuestSeparated (regionsOf s v) := by
  unfold regionsOf
  cases hv : alookup v s.memory with
  | none => exact List.Pairwise.nil
  | some l => exact H (v, l) (mem_of_alookup_eq_some _ _ _ hv)

theorem memInv_map_memory (s : SystemState) (v : VMID) (g : GPA)
    (len host prot : Nat) (H : MemInv s) :
    MemInv (map_memory s v g len host prot).2 := by
  obtain ⟨Hnodup, Hguest, Hhost⟩ := H
  unfold map_memory
  split
  · exact ⟨Hnodup, Hguest, Hhost⟩
  · split
    · exact ⟨Hnodup, Hguest, Hhost⟩
    · split
      · exact ⟨Hnodup, Hguest, Hhost⟩
      · split
        · exact ⟨Hnodup, Hguest, Hhost⟩
        · next h4 =>
            split
            · exact ⟨Hnodup, Hguest, Hhost⟩
            · next h5 =>
                show MemInv
                  { s with
                    memory := ainsert v (regionsOf s v ++ [⟨g, len, host, prot⟩]) s.memory }
                have h4' : (regionsOf s v).any
                    (fun r => overlapsB g len r.guest_base r.length) = false := by
                  cases hb : (regionsOf s v).any
                      (fun r => overlapsB g len r.guest_base r.length)
                  · rfl
                  · exact absurd hb h4
                have h5' : s.memory.any (fun p => decide (p.1 ≠ v) &&
                    p.2.any (fun r => overlapsB host len r.host_backing r.length)) = false := by
                  cases hb : s.memory.any (fun p => decide (p.1 ≠ v) &&
                      p.2.any (fun r => overlapsB host len r.host_backing r.length))
                  · rfl
                  · exact absurd hb h5
                have hG : ∀ rg ∈ regionsOf s v,
                    overlapsB g len rg.guest_base rg.length = false := by
                  intro rg hrg
                  exact any_false _ _ h4' rg hrg
                have hH : ∀ p ∈ s.memory, p.1 ≠ v →
                    ∀ rg ∈ p.2, overlapsB host len rg.host_backing rg.length = false := by
                  intro p hp hne rg hrg
                  have hx := any_false _ _ h5' p hp
                  have hd : decide (p.1 ≠ v) = true := decide_eq_true hne
                  rw [hd, Bool.true_and] at hx
                  exact any_false _ _ hx rg hrg
                refine ⟨?_, ?_, ?_⟩
                · show (ainsert v _ s.memory).map Prod.fst |>.Nodup
                  rw [keys_ainsert]
                  by_cases hv : (alookup v s.memory).isSome = true
                  · rw [if_pos hv]; exact Hnodup
                  · rw [if_neg hv]
                    have hvnone : alookup v s.memory = none := by
                      cases hvv : alookup v s.memory
                      · rfl
                      · rw [hvv] at hv; simp at hv
                    have hnk := not_mem_key_of_alookup_none v s.memory hvnone
                    rw [List.nodup_append]
                    refine ⟨Hnodup, List.nodup_singleton v, ?_⟩
                    intro k hk hkv
                    have hkv' : k = v := by simpa using hkv
                    obtain ⟨p, hp, hpk⟩ := List.mem_map.mp hk
                    exact hnk p hp (hpk.trans hkv')
                · intro p hp
                  rcases mem_ainsert _ _ _ p hp with hnew | hold
                  · subst hnew
                    show GuestSeparated (regionsOf s v ++ [⟨g, len, host, prot⟩])
                    rw [GuestSeparated, List.pairwise_append]
                    refine ⟨guestSeparated_regionsOf s v Hguest,
                      List.pairwise_singleton _ _, ?_⟩
                    intro a ha b hb
                    have hb' : b = ⟨g, len, host, prot⟩ := by simpa using hb
                    subst hb'
                    rw [overlapsB_comm]
                    exact hG a ha
                  · exact Hguest p hold.1
                · intro p hp q hq hne aR haR bR hbR
                  rcases mem_ainsert _ _ _ p hp with hpnew | hpold
                  · rcases mem_ainsert _ _ _ q hq with hqnew | hqold
                    · subst hpnew; subst hqnew; simp at hne
                    · subst hpnew
                      rcases List.mem_append.mp haR with haold | hanew
                      · have hvl : ∀ l, alookup v s.memory = some l →
                            overlapsB aR.host_backing aR.length bR.host_backing bR.length
                              = false := by
                          intro l hl
                          have hmem := mem_of_alookup_eq_some _ _ _ hl
                          have haold' : aR ∈ l := by
                            unfold regionsOf at haold; rw [hl] at haold; exact haold
                          exact Hhost (v, l) hmem q hqold.1 (Ne.symm hqold.2) aR haold' bR hbR
                        cases hvv : alookup v s.memory with
                        | none =>
                            exfalso
                            unfold regionsOf at haold
                            rw [hvv] at haold
                            exact absurd haold (List.not_mem_nil aR)
                        | some l => exact hvl l hvv
                      · have ha' : aR = ⟨g, len, host, prot⟩ := by simpa using hanew
                        subst ha'
                        exact hH q hqold.1 hqold.2 bR hbR
                  · rcases mem_ainsert _ _ _ q hq with hqnew | hqold
                    · subst hqnew
                      rcases List.mem_append.mp hbR with hbold | hbnew
                      · have hvl : ∀ l, alookup v s.memory = some l →
                            overlapsB aR.host_backing aR.length bR.host_backing bR.length
                              = false := by
                          intro l hl
                          have hmem := mem_of_alookup_eq_some _ _ _ hl
                          have hbold' : bR ∈ l := by
                            unfold regionsOf at hbold; rw [hl] at hbold; exact hbold
                          exact Hhost p hpold.1 (v, l) hmem hne aR haR bR hbold'
                        cases hvv : alookup v s.memory with
                        | none =>
                            exfalso
                            unfold regionsOf at hbold
                            rw [hvv] at hbold
                            exact absurd hbold (List.not_mem_nil bR)
                        | some l => exact hvl l hvv
                      · have hb' : bR = ⟨g, len, host, prot⟩ := by simpa using hbnew
                        subst hb'
                        rw [overlapsB_comm]
                        exact hH p hpold.1 hpold.2 aR haR
                    · exact Hhost p hpold.1 q hqold.1 hne aR haR bR hbR

theorem memInv_map_many :
    ∀ (reqs : List (VMID × GPA × Nat × Nat × Nat)) (s : SystemState),
      MemInv s → MemInv (map_many s reqs)
  | [], _, H => H
  | r :: rest, s, H =>
      memInv_map_many rest _
        (memInv_map_memory s r.1 r.2.1 r.2.2.1 r.2.2.2.1 r.2.2.2.2 H)

theorem map_memory_fails (s : SystemState) (v : VMID) (g : GPA)
    (len host prot : Nat)
    (hex : (alookup v s.vms).isSome = true)
    (hcap : s.has_capability v .MapMemory = true)
    (hbad : len = 0
      ∨ ((regionsOf s v).any (fun r => overlapsB g len r.guest_base r.length) = true)
      ∨ (s.memory.any (fun p => decide (p.1 ≠ v) &&
          p.2.any (fun r => overlapsB host len r.host_backing r.length)) = true)) :
    ∃ m, map_memory s v g len host prot = (.error (.MemoryError m), s) := by
  have hnotNone : ¬((alookup v s.vms).isNone = true) := by
    cases hv : alookup v s.vms
    · rw [hv] at hex; simp at hex
    · simp
  have hcap' : ¬((!s.has_capability v .MapMemory) = true) := by simp [hcap]
  rcases hbad with h0 | hg | hh
  · refine ⟨"zero-length mapping", ?_⟩
    unfold map_memory
    rw [if_neg hnotNone, if_neg hcap', if_pos h0]
  · by_cases h0 : len = 0
    · refine ⟨"zero-length mapping", ?_⟩
      unfold map_memory
      rw [if_neg hnotNone, if_neg hcap', if_pos h0]
    · refine ⟨"guest-physical overlap", ?_⟩
      unfold map_memory
      rw [if_neg hnotNone, if_neg hcap', if_neg h0, if_pos hg]
  · by_cases h0 : len = 0
    · refine ⟨"zero-length mapping", ?_⟩
      unfold map_memory
      rw [if_neg hnotNone, if_neg hcap', if_pos h0]
    · by_cases hg2 : (regionsOf s v).any
          (fun r => overlapsB g len r.guest_base r.length) = true
      · refine ⟨"guest-physical overlap", ?_⟩
        unfold map_memory
        rw [if_neg hnotNone, if_neg hcap', if_neg h0, if_pos hg2]
      · refine ⟨"host-backing overlap", ?_⟩
        unfold map_memory
        rw [if_neg hnotNone, if_neg hcap', if_neg h0, if_neg hg2, if_pos hh]

/-- C9: memory non-interference is an invariant of the (spec-modelled)
memory manager: any sequence of map operations starting from a state with
the invariant (failures being no-ops) preserves it — no host-backing byte
shared between distinct VMs, no guest-physical overlap within one VM — and
map fails with MemoryError whenever the VM exists with MapMemory but the
request has length 0, overlaps the VM's own regions in guest-physical
space, or overlaps another VM's host backing. -/
theorem c9_memory_noninterference :
    (∀ (s : SystemState) (reqs : List (VMID × GPA × Nat × Nat × Nat)),
      MemInv s → MemInv (map_many s reqs)) ∧
    (∀ (s : SystemState) (v : VMID) (g : GPA) (len host prot : Nat),
      (alookup v s.vms).isSome = true →
      s.has_capability v .MapMemory = true →
      (len = 0
        ∨ (∃ rg ∈ regionsOf s v, overlapsB g len rg.guest_base rg.length = true)
        ∨ (∃ p ∈ s.memory, p.1 ≠ v ∧
            ∃ rg ∈ p.2, overlapsB host len rg.host_backing rg.length = true)) →
      ∃ m, map_memory s v g len host prot = (.error (.MemoryError m), s)) := by
  constructor
  · intro s reqs H
    exact memInv_map_many reqs s H
  · intro s v g len host prot hex hcap hbad
    apply map_memory_fails s v g len host prot hex hcap
    rcases hbad with h0 | hg | hh
    · exact Or.inl h0
    · refine Or.inr (Or.inl ?_)
      rw [List.any_eq_true]
      obtain ⟨rg, hrg, hov⟩ := hg
      exact ⟨rg, hrg, hov⟩
    · refine Or.inr (Or.inr ?_)
      rw [List.any_eq_true]
      obtain ⟨p, hp, hne, rg, hrg, hov⟩ := hh
      refine ⟨p, hp, ?_⟩
      rw [Bool.and_eq_true]
      exact ⟨decide_eq_true hne, List.any_eq_true.mpr ⟨rg, hrg, hov⟩⟩

/-- C9 witness: a successful map from an empty memory map keeps the
invariant, and a zero-length map on the same state fails with
MemoryError. -/
theorem c9_witness :
    MemInv (⟨[(0, .Created)], [(0, [.MapMemory])], [], [], 1⟩ : SystemState) ∧
    MemInv (map_many ⟨[(0, .Created)], [(0, [.MapMemory])], [], [], 1⟩
      [(0, 0, 0x1000, 0xA000, 0)]) ∧
    ∃ m, map_memory ⟨[(0, .Created)], [(0, [.MapMemory])], [], [], 1⟩ 0 0 0 0xA000 0
      = (.error (.MemoryError m), ⟨[(0, .Created)], [(0, [.MapMemory])], [], [], 1⟩) :=
  ⟨⟨List.nodup_nil, fun p hp => absurd hp (List.not_mem_nil p),
      fun p hp => absurd hp (List.not_mem_nil p)⟩,
   c9_memory_noninterference.1 ⟨[(0, .Created)], [(0, [.MapMemory])], [], [], 1⟩
     [(0, 0, 0x1000, 0xA000, 0)]
     ⟨List.nodup_nil, fun p hp => absurd hp (List.not_mem_nil p),
       fun p hp => absurd hp (List.not_mem_nil p)⟩,
   c9_memory_noninterference.2 ⟨[(0, .Created)], [(0, [.MapMemory])], [], [], 1⟩
     0 0 0 0xA000 0 rfl rfl (Or.inl rfl)⟩

/-! ## Claim C5: self-transfer -/

/-- C5: evaluating the code at the failing input.  Self-transfer with
move=true returns Ok but drops the capability: the grant to the target is a
no-op (the source already holds it) and the subsequent removal from the
source deletes it, so the VM no longer possesses the capability, contrary
to the function's documented postcondition and to the spec. -/
theorem c5_self_move_drops_capability :
    (transfer_capability ⟨[(0, .Created)], [(0, [.Halt])], [], [], 1⟩ 0 0 .Halt true).1
      = .ok () ∧
    (transfer_capability ⟨[(0, .Created)], [(0, [.Halt])], [], [], 1⟩ 0 0 .Halt
        true).2.has_capability 0 .Halt = false ∧
    (transfer_capability ⟨[(0, .Created)], [(0, [.Halt])], [], [], 1⟩ 0 0 .Halt
        false).2.has_capability 0 .Halt = true :=
  ⟨rfl, rfl, rfl⟩

/-! ## Claim C6: handle_exit reads nothing beyond existence and the
capability predicate -/

/-- C6: `handle_exit` is deterministic and depends only on the exit reason,
the CPU state, the VM's existence bit and its HandleExit capability bit:
two states agreeing on those two bits give equal results for every fixed
`(v, reason, cpu)`. -/
theorem c6_handle_exit_depends_only_on_existence_and_capability
    (s1 s2 : SystemState) (v : VMID) (r : ExitReason) (cpu : CPUState)
    (hex : (alookup v s1.vms).isSome = (alookup v s2.vms).isSome)
    (hcap : s1.has_capability v .HandleExit = s2.has_capability v .HandleExit) :
    handle_exit s1 v r cpu = handle_exit s2 v r cpu := by
  unfold handle_exit
  rw [hex, hcap]

/-- C6 witness: two concrete states that differ in the VM's lifecycle
state, its other capabilities, the exit queue and the counter, but agree on
existence and HandleExit, give the same result. -/
theorem c6_witness :
    ((alookup 0 (⟨[(0, .Created)], [(0, [.HandleExit])], [], [], 1⟩ : SystemState).vms).isSome
      = (alookup 0 (⟨[(0, .Runnable cpu0)], [(0, [.Execute, .HandleExit])], [],
          [(0, .WFI)], 5⟩ : SystemState).vms).isSome) ∧
    ((⟨[(0, .Created)], [(0, [.HandleExit])], [], [], 1⟩ : SystemState).has_capability 0
        .HandleExit
      = (⟨[(0, .Runnable cpu0)], [(0, [.Execute, .HandleExit])], [],
          [(0, .WFI)], 5⟩ : SystemState).has_capability 0 .HandleExit) ∧
    handle_exit ⟨[(0, .Created)], [(0, [.HandleExit])], [], [], 1⟩ 0 .Cancelled cpu0
      = handle_exit ⟨[(0, .Runnable cpu0)], [(0, [.Execute, .HandleExit])], [],
          [(0, .WFI)], 5⟩ 0 .Cancelled cpu0 :=
  ⟨rfl, rfl,
    c6_handle_exit_depends_only_on_existence_and_capability
      ⟨[(0, .Created)], [(0, [.HandleExit])], [], [], 1⟩
      ⟨[(0, .Runnable cpu0)], [(0, [.Execute, .HandleExit])], [], [(0, .WFI)], 5⟩
      0 .Cancelled cpu0 rfl rfl⟩

/-! ## Claim C10: halt is idempotent on Halted -/

/-- C10: halting an existing VM that holds the Halt capability and is
already Halted returns Ok, leaves it Halted (the VM map is unchanged as a
map), and leaves every other component of the system state unchanged. -/
theorem c10_halt_idempotent_on_halted (s : SystemState) (v : VMID)
    (hst : alookup v s.vms = some .Halted)
    (hcap : s.has_capability v .Halt = true) :
    (halt_vm s v).1 = .ok () ∧
    (∀ w, alookup w (halt_vm s v).2.vms = alookup w s.vms) ∧
    (halt_vm s v).2.caps = s.caps ∧
    (halt_vm s v).2.memory = s.memory ∧
    (halt_vm s v).2.exits = s.exits ∧
    (halt_vm s v).2.next_vmid = s.next_vmid := by
  have hex : (alookup v s.vms).isSome = true := by rw [hst]; rfl
  have h1 : halt_vm s v = (.ok (), { s with vms := ainsert v .Halted s.vms }) := by
    simp [halt_vm, hex, hcap]
  rw [h1]
  refine ⟨rfl, ?_, rfl, rfl, rfl, rfl⟩
  intro w
  by_cases hw : w = v
  · subst hw
    rw [alookup_ainsert_self, hst]
  · exact alookup_ainsert_ne v w _ _ hw

/-- C10 witness: a concrete Halted VM with the Halt capability. -/
theorem c10_witness :
    (alookup 0 (⟨[(0, .Halted)], [(0, [.Halt])], [], [], 1⟩ : SystemState).vms
      = some .Halted) ∧
    ((⟨[(0, .Halted)], [(0, [.Halt])], [], [], 1⟩ : SystemState).has_capability 0 .Halt
      = true) ∧
    (halt_vm ⟨[(0, .Halted)], [(0, [.Halt])], [], [], 1⟩ 0).1 = .ok () ∧
    alookup 0 (halt_vm ⟨[(0, .Halted)], [(0, [.Halt])], [], [], 1⟩ 0).2.vms
      = alookup 0 (⟨[(0, .Halted)], [(0, [.Halt])], [], [], 1⟩ : SystemState).vms :=
  ⟨rfl, rfl,
    (c10_halt_idempotent_on_halted ⟨[(0, .Halted)], [(0, [.Halt])], [], [], 1⟩ 0 rfl rfl).1,
    (c10_halt_idempotent_on_halted ⟨[(0, .Halted)], [(0, [.Halt])], [], [], 1⟩ 0
      rfl rfl).2.1 0⟩

end UHIOS
